import Mathlib

/-!
Verification of the spatial-query, tile-configuration, diagnostics and
data-loading behavior of the node-mapnik vector-tile binding
(src/mapnik_vector_tile.cpp).

Modelling conventions:
* C++ doubles are modelled as exact rationals (ℚ).  All claim-relevant
  computations in the source are comparisons, additions, multiplications and
  divisions, which ℚ models exactly; floating-point rounding is abstracted.
* The external mapnik metric primitives mapnik::distance and
  mapnik::point_to_segment_distance (mapnik library, not part of this
  repository) are abstracted as a `DistFns` record; theorems quantify over it.
* Geometry collections are omitted from the geometry sum type: the source
  marks that branch of the visitor unreachable for vector tiles
  (LCOV_EXCL, "There is no current way that a geometry collection could be
  returned from a vector tile").
-/

namespace NodeMapnik

/-- Planar point with rational coordinates (mercator frame, doubles modelled
exactly as ℚ). -/
structure Pt where
  x : ℚ
  y : ℚ
deriving DecidableEq, Repr

/-- Polygon ring, as decoded by mapnik: a closed list of points. -/
abbrev Ring := List Pt

/-- Polygon: first ring is the exterior, the rest are interior rings. -/
abbrev Poly := List Ring

/-- Decoded geometry variants handled by the p2p_distance visitor in
src/mapnik_vector_tile.cpp (geometry collections omitted, see the module
doc comment). -/
inductive Geom where
  | empty : Geom
  | point : Pt → Geom
  | multiPoint : List Pt → Geom
  | lineString : List Pt → Geom
  | multiLineString : List (List Pt) → Geom
  | polygon : Poly → Geom
  | multiPolygon : List Poly → Geom
deriving DecidableEq, Repr

/-- Result record of the point-to-geometry distance visitor
(detail::p2p_result, src/mapnik_vector_tile.cpp lines 70-80). -/
structure P2PResult where
  distance : ℚ
  x_hit : ℚ
  y_hit : ℚ
deriving DecidableEq, Repr

/-- Default-constructed p2p_result: distance -1 (meaning: no hit), hit point
(0,0). -/
def p2pInit : P2PResult := ⟨-1, 0, 0⟩

/-- External metric primitives used by the visitor: mapnik::distance and
mapnik::point_to_segment_distance are part of the mapnik library, not of this
repository; the query engine is parametric in them.  `pointDist x0 y0 x1 y1`
models mapnik::distance(x0,y0,x1,y1) and `segDist x y x0 y0 x1 y1` models
mapnik::point_to_segment_distance(x,y,x0,y0,x1,y1). -/
structure DistFns where
  pointDist : ℚ → ℚ → ℚ → ℚ → ℚ
  segDist : ℚ → ℚ → ℚ → ℚ → ℚ → ℚ → ℚ

/-- Concrete instance of the external metric primitives used to evaluate
theorems on closed inputs: squared euclidean distance to a point, and squared
euclidean distance to the first segment endpoint.  Any nonnegative metrics
satisfy the hypotheses the theorems place on `DistFns`. -/
def sqFns : DistFns :=
  { pointDist := fun x0 y0 x1 y1 => (x0 - x1) ^ 2 + (y0 - y1) ^ 2
    segDist := fun x y x0 y0 _ _ => (x - x0) ^ 2 + (y - y0) ^ 2 }

/-- Accumulation step shared by the multi-point / multi-line / multi-polygon
cases of the visitor: keep the sub-result when it is a hit (distance >= 0)
that improves on the accumulator (which is either still "no hit", distance
< 0, or farther away). -/
def p2pMerge (acc sub : P2PResult) : P2PResult :=
  if 0 ≤ sub.distance ∧ (acc.distance < 0 ∨ sub.distance < acc.distance) then
    sub
  else acc

/-- Edge crossing test used by the polygon case: mapnik::detail::pip.
Modelled from the spec: the even-odd ray-casting point-in-ring edge test
(mapnik hit-test header, external to this repository).  The horizontal ray
from (x,y) crosses the edge (x0,y0)-(x1,y1) when the edge straddles the
scanline y and the crossing lies to the right of x. -/
def pip (x0 y0 x1 y1 x y : ℚ) : Bool :=
  decide (((y1 ≤ y ∧ y < y0) ∨ (y0 ≤ y ∧ y < y1)) ∧
    x < (x0 - x1) * (y - y1) / (y0 - y1) + x1)

/-- Consecutive edges of a ring, as iterated by the source loops
(index 1 .. num_points-1, pairing ring[index-1] with ring[index]). -/
def edges (ps : List Pt) : List (Pt × Pt) := ps.zip ps.tail

/-- Parity accumulation over one ring: toggle `inside` on every crossing edge
(the inner loop of the polygon case, lines 169-178). -/
def ringCross (x y : ℚ) (inside : Bool) (ring : Ring) : Bool :=
  (edges ring).foldl
    (fun ins e => if pip e.1.x e.1.y e.2.x e.2.y x y then !ins else ins) inside

/-- Parity accumulation over the interior rings (ring_index >= 1): rings with
fewer than 4 points are skipped ("continue"), all others toggle the running
parity. -/
def ringsCross (x y : ℚ) (inside : Bool) : List Ring → Bool
  | [] => inside
  | r :: rs =>
      if r.length < 4 then ringsCross x y inside rs
      else ringsCross x y (ringCross x y inside r) rs

/-- Polygon case of the visitor (src/mapnik_vector_tile.cpp lines 153-183):
an exterior ring with fewer than 4 points returns no hit; the edge-crossing
parity of the exterior ring is computed and, when even ("!inside"), the
function returns no hit immediately; otherwise parity keeps accumulating over
the interior rings (skipping those with fewer than 4 points) and the final
result is distance 0 exactly when the total parity is odd. -/
def p2pPolygon (x y : ℚ) : Poly → P2PResult
  | [] => p2pInit
  | r0 :: rs =>
      if r0.length < 4 then p2pInit
      else
        let inside := ringCross x y false r0
        if !inside then p2pInit
        else if ringsCross x y inside rs then { p2pInit with distance := 0 }
        else p2pInit

/-- Point case of the visitor: hit at the point itself, distance given by the
external metric (lines 94-101). -/
def p2pPoint (D : DistFns) (x y : ℚ) (p : Pt) : P2PResult :=
  ⟨D.pointDist p.x p.y x y, p.x, p.y⟩

/-- Line-string case of the visitor (lines 117-137): minimum of the segment
distances over consecutive point pairs, hit recorded at the first endpoint of
the best segment; fewer than 2 points yield no hit. -/
def p2pLine (D : DistFns) (x y : ℚ) (ps : List Pt) : P2PResult :=
  if 1 < ps.length then
    (edges ps).foldl
      (fun acc e =>
        p2pMerge acc ⟨D.segDist x y e.1.x e.1.y e.2.x e.2.y, e.1.x, e.1.y⟩)
      p2pInit
  else p2pInit

/-- The p2p_distance visitor (detail::p2p_distance, lines 82-221), dispatched
over the geometry variants; path_to_point_distance applies it (lines 225-228).
-/
def p2pDist (D : DistFns) (x y : ℚ) : Geom → P2PResult
  | .empty => p2pInit
  | .point p => p2pPoint D x y p
  | .multiPoint ps =>
      ps.foldl (fun acc p => p2pMerge acc (p2pPoint D x y p)) p2pInit
  | .lineString ps => p2pLine D x y ps
  | .multiLineString ls =>
      ls.foldl (fun acc l => p2pMerge acc (p2pLine D x y l)) p2pInit
  | .polygon poly => p2pPolygon x y poly
  | .multiPolygon polys =>
      polys.foldl (fun acc pl => p2pMerge acc (p2pPolygon x y pl)) p2pInit

/-- Even-odd ray-casting over ALL rings of a polygon, exactly as the spec
sentence for claim C3 words the containment test: total crossing parity over
every ring, no ring skipped, no early exit.  This follows the words of the
spec, to be compared with `p2pPolygon`, which is translated from the source.
-/
def evenOddAllRings (x y : ℚ) (poly : Poly) : Bool :=
  poly.foldl (fun ins r => ringCross x y ins r) false

/-- Vector-tile feature: id and decoded geometry (attribute tags are not
needed by the claims under verification). -/
structure Feature where
  fid : Nat
  geom : Geom
deriving DecidableEq, Repr

/-- Vector-tile layer: name and ordered feature list. -/
structure Layer where
  name : String
  features : List Feature
deriving DecidableEq, Repr

/-- VectorTile wrapper state: (z,x,y) identity, tile_size, signed buffer_size
and the decoded layers.  JavaScript numbers pass through Int32Value in the
source; they are modelled as unbounded integers, exact on the in-range
values the claims quantify over. -/
structure VT where
  z : Int
  x : Int
  y : Int
  tile_size : Int
  buffer_size : Int
  layers : List Layer
deriving DecidableEq, Repr

/-- The tile invariant of the spec: tile_size + 2*buffer_size > 0. -/
def vtInvariant (t : VT) : Prop := 0 < t.tile_size + 2 * t.buffer_size

instance (t : VT) : Decidable (vtInvariant t) := by
  unfold vtInvariant; infer_instance

/-- Constructor VectorTile::New (src/mapnik_vector_tile.cpp lines 326-427):
validates z,x,y (nonnegative, x and y below 2^z), the optional tile_size
(strictly positive, default 4096), takes buffer_size as given (default 128),
and finally rejects tile_size + 2*buffer_size <= 0. -/
def vectorTileNew (z x y : Int) (tileSizeOpt bufferSizeOpt : Option Int) :
    Except String VT :=
  if z < 0 ∨ x < 0 ∨ y < 0 then
    .error "required parameters (z, x, and y) must be greater then or equal to zero"
  else if (2 : Int) ^ z.toNat ≤ x then
    .error "required parameter x is out of range of possible values based on z value"
  else if (2 : Int) ^ z.toNat ≤ y then
    .error "required parameter y is out of range of possible values based on z value"
  else
    match tileSizeOpt with
    | some tmp =>
        if tmp ≤ 0 then .error "optional arg tile_size must be greater then zero"
        else
          let bs := bufferSizeOpt.getD 128
          if tmp + 2 * bs ≤ 0 then .error "too large of a negative buffer for tilesize"
          else .ok ⟨z, x, y, tmp, bs, []⟩
    | none =>
        let bs := bufferSizeOpt.getD 128
        if 4096 + 2 * bs ≤ 0 then .error "too large of a negative buffer for tilesize"
        else .ok ⟨z, x, y, 4096, bs, []⟩

/-- Setter VectorTile::set_tile_size (lines 6542-6560): rejects a
non-positive value, stores any positive value WITHOUT re-checking the
tile_size + 2*buffer_size invariant. -/
def set_tile_size (t : VT) (val : Int) : Except String VT :=
  if val ≤ 0 then .error "tile size must be greater then zero"
  else .ok { t with tile_size := val }

/-- Setter VectorTile::set_buffer_size (lines 6562-6580): rejects a value
that would make tile_size + 2*buffer_size non-positive. -/
def set_buffer_size (t : VT) (val : Int) : Except String VT :=
  if t.tile_size + 2 * val ≤ 0 then
    .error "too large of a negative buffer for tilesize"
  else .ok { t with buffer_size := val }

/-- All coordinates appearing in a geometry (used to compute its envelope).
-/
def geomPoints : Geom → List Pt
  | .empty => []
  | .point p => [p]
  | .multiPoint ps => ps
  | .lineString ps => ps
  | .multiLineString ls => ls.flatten
  | .polygon poly => poly.flatten
  | .multiPolygon polys => (polys.map List.flatten).flatten

/-- Axis-aligned bounding box. -/
structure Box where
  minx : ℚ
  miny : ℚ
  maxx : ℚ
  maxy : ℚ
deriving DecidableEq, Repr

/-- Grow a box to include a point. -/
def expandBox (b : Box) (p : Pt) : Box :=
  ⟨min b.minx p.x, min b.miny p.y, max b.maxx p.x, max b.maxy p.y⟩

/-- Envelope of a geometry: none when the geometry has no coordinates. -/
def envOf (g : Geom) : Option Box :=
  match geomPoints g with
  | [] => none
  | p :: ps => some (ps.foldl expandBox ⟨p.x, p.y, p.x, p.y⟩)

/-- Box intersection test. -/
def boxIntersects (a b : Box) : Bool :=
  decide (a.minx ≤ b.maxx ∧ b.minx ≤ a.maxx ∧ a.miny ≤ b.maxy ∧ b.miny ≤ a.maxy)

/-- Query box of the single-point query: the query point padded by the
tolerance on each side. -/
def queryBox (x y tol : ℚ) : Box := ⟨x - tol, y - tol, x + tol, y + tol⟩

/-- Modelled from the spec: tile_datasource_pbf::features_at_point
(mapnik-vector-tile library, external to this repository) performs the
"bounding-box-prefiltered scan" of a layer: it yields the features whose
envelope intersects the tolerance-padded box around the query point. -/
def featuresAtPoint (l : Layer) (x y tol : ℚ) : List Feature :=
  l.features.filter fun f =>
    match envOf f.geom with
    | none => false
    | some b => boxIntersects b (queryBox x y tol)

/-- Query result record (query_result: layer, distance, hit point, feature).
-/
structure QueryResult where
  distance : ℚ
  x_hit : ℚ
  y_hit : ℚ
  layer : String
  feature : Feature
deriving DecidableEq, Repr

/-- Ordering of query results by ascending distance. -/
def distLE (a b : QueryResult) : Prop := a.distance ≤ b.distance

instance : DecidableRel distLE := fun a b => by
  unfold distLE; infer_instance

instance : IsTotal QueryResult distLE := ⟨fun a b => le_total a.distance b.distance⟩

instance : IsTrans QueryResult distLE := ⟨fun _ _ _ h1 h2 => le_trans h1 h2⟩

/-- Modelled from the spec: the final std::sort of VectorTile::_query (lines
1793-1795) compares query_result values with operator>, which is declared in
mapnik_vector_tile.hpp and is not under src/; the spec fixes the observable
behavior — "Results are sorted by ascending distance" — so the sort is
modelled as insertion sort under the ascending-distance ordering (std::sort
guarantees a sorted permutation, nothing about tie order). -/
def sortByDist (rs : List QueryResult) : List QueryResult :=
  List.insertionSort distLE rs

/-- Scan of one layer in VectorTile::_query (lines 1726-1750): for each
feature of the bounding-box-prefiltered scan, compute the p2p distance and
retain the feature when 0 <= distance <= tolerance.  The backward
reprojection of the hit coordinates (external mapnik proj_transform, which
the source notes can never fail for the mercator pair) is modelled as the
identity; it does not touch the distance. -/
def layerHits (D : DistFns) (l : Layer) (x y tol : ℚ) : List QueryResult :=
  (featuresAtPoint l x y tol).filterMap fun f =>
    let p2p := p2pDist D x y f.geom
    if 0 ≤ p2p.distance ∧ p2p.distance ≤ tol then
      some ⟨p2p.distance, p2p.x_hit, p2p.y_hit, l.name, f⟩
    else none

/-- Hit collection phase of VectorTile::_query (lines 1716-1792): a
non-empty layer name restricts the scan to that layer (no results when the
layer is absent), otherwise every layer is scanned in order. -/
def gatherQuery (D : DistFns) (tile : List Layer) (x y tol : ℚ)
    (layerName : String) : List QueryResult :=
  if layerName ≠ "" then
    match tile.find? (fun l => l.name == layerName) with
    | some l => layerHits D l x y tol
    | none => []
  else
    tile.flatMap fun l => layerHits D l x y tol

/-- VectorTile::_query (lines 1692-1797): empty tile yields no results;
otherwise the collected hits are sorted by distance.  The query point is
taken already reprojected into the mercator frame (the lon/lat forward
reprojection is external mapnik code which, as the source notes, cannot
fail). -/
def queryTile (D : DistFns) (tile : List Layer) (x y tol : ℚ)
    (layerName : String) : List QueryResult :=
  if tile = [] then []
  else sortByDist (gatherQuery D tile x y tol layerName)

/-- Hit record of the batch query (query_hit: distance and the
query-local feature id). -/
structure QueryHit where
  distance : ℚ
  feature_id : Nat
deriving DecidableEq, Repr

/-- Ordering of batch-query hits by ascending distance
(VectorTile::_queryManySort, lines 2122-2125: a.distance < b.distance). -/
def hitLE (a b : QueryHit) : Prop := a.distance ≤ b.distance

instance : DecidableRel hitLE := fun a b => by
  unfold hitLE; infer_instance

instance : IsTotal QueryHit hitLE := ⟨fun a b => le_total a.distance b.distance⟩

instance : IsTrans QueryHit hitLE := ⟨fun _ _ _ h1 h2 => le_trans h1 h2⟩

/-- The per-point std::sort of _queryMany (line 2114) with the
_queryManySort comparator, modelled as insertion sort under the
ascending-distance ordering. -/
def sortHits (hs : List QueryHit) : List QueryHit :=
  List.insertionSort hitLE hs

/-- Modelled from the spec: mapnik::box2d::pad (external mapnik) grows the
box by the padding on every side. -/
def padBox (b : Box) (t : ℚ) : Box :=
  ⟨b.minx - t, b.miny - t, b.maxx + t, b.maxy + t⟩

/-- Modelled from the spec: the bounding box of the reprojected query points
accumulated with mapnik::box2d::expand_to_include (external mapnik); with no
points the box stays the default-constructed invalid box (0,0,-1,-1). -/
def bboxOfPoints : List Pt → Box
  | [] => ⟨0, 0, -1, -1⟩
  | p :: ps => ps.foldl expandBox ⟨p.x, p.y, p.x, p.y⟩

/-- Spatial prefilter box of the batch query (lines 2015-2036): bounding box
of all reprojected query points, padded by the tolerance. -/
def queryManyBox (pts : List Pt) (tol : ℚ) : Box :=
  padBox (bboxOfPoints pts) tol

/-- Modelled from the spec: ds->features(q) with the padded bounding box
(lines 2044-2061, tile_datasource_pbf is external mapnik-vector-tile code)
yields the layer features whose envelope intersects that box. -/
def queryManyCandidates (l : Layer) (pts : List Pt) (tol : ℚ) : List Feature :=
  l.features.filter fun f =>
    match envOf f.geom with
    | none => false
    | some b => boxIntersects b (queryManyBox pts tol)

/-- std::map insert for the features map (line 2087): a no-op when the key is
already present, otherwise the pair is added (keys are handed out in
increasing order, so insertion order equals key order). -/
def featInsert (m : List (Nat × QueryResult)) (k : Nat) (v : QueryResult) :
    List (Nat × QueryResult) :=
  if m.any (fun e => e.1 == k) then m else m ++ [(k, v)]

/-- find-or-insert append into the hits map (lines 2089-2101): the hit is
appended to the vector of its query point, which is created on first use. -/
def hitsAppend (m : List (Nat × List QueryHit)) (p : Nat) (h : QueryHit) :
    List (Nat × List QueryHit) :=
  match m with
  | [] => [(p, [h])]
  | e :: rest =>
      if e.1 == p then (e.1, e.2 ++ [h]) :: rest
      else e :: hitsAppend rest p h

/-- Hit test of the batch query against one query point: the p2p distance
of the feature lands in [0, tolerance] (line 2075). -/
def hitB (D : DistFns) (tol : ℚ) (f : Feature) (p : Pt) : Bool :=
  decide (0 ≤ (p2pDist D p.x p.y f.geom).distance ∧
    (p2pDist D p.x p.y f.geom).distance ≤ tol)

/-- Inner loop of _queryMany over the (indexed) query points for one
candidate feature (lines 2069-2103): each point whose p2p distance lands in
[0, tolerance] flags the feature as hit, inserts it under the running index
into the features map (distance 0, default hit coordinates, the layer name)
and appends a query_hit to that point.  The state carries the two maps and
the has_hit flag (initially false, line 2069). -/
def processFeature (D : DistFns) (pts : List (Nat × Pt)) (tol : ℚ)
    (lname : String) (f : Feature) (idx : Nat)
    (st : (List (Nat × QueryResult) × List (Nat × List QueryHit)) × Bool) :
    (List (Nat × QueryResult) × List (Nat × List QueryHit)) × Bool :=
  match pts with
  | [] => st
  | pp :: rest =>
      processFeature D rest tol lname f idx
        (let p2p := p2pDist D pp.2.x pp.2.y f.geom
        if 0 ≤ p2p.distance ∧ p2p.distance ≤ tol then
          ((featInsert st.1.1 idx ⟨0, 0, 0, lname, f⟩,
            hitsAppend st.1.2 pp.1 ⟨p2p.distance, idx⟩), true)
        else st)

/-- Outer loop of _queryMany over the candidate features (lines 2063-2108):
the dense feature index only advances after a feature that registered at
least one hit. -/
def scanFeatures (D : DistFns) (pts : List (Nat × Pt)) (tol : ℚ)
    (lname : String) :
    List Feature → Nat →
    List (Nat × QueryResult) × List (Nat × List QueryHit) →
    List (Nat × QueryResult) × List (Nat × List QueryHit)
  | [], _, st => st
  | f :: fs, idx, st =>
      let r := processFeature D pts tol lname f idx (st, false)
      scanFeatures D pts tol lname fs (if r.2 then idx + 1 else idx) r.1

/-- Output of the batch query: the features map and the per-point hit lists.
-/
structure QueryManyResult where
  features : List (Nat × QueryResult)
  hits : List (Nat × List QueryHit)
deriving DecidableEq, Repr

/-- Batch query _queryMany together with the option validation of its
queryMany entry point: an empty layer name is rejected at the JS boundary
(line 1955-1959, "options.layer is required"); a missing layer is a runtime
error (lines 2005-2009); otherwise the candidates of the bbox prefilter are
scanned point by point and every per-point hit list is sorted by ascending
distance (lines 2111-2115).  Query points are taken already reprojected to
mercator. -/
def queryManyTile (D : DistFns) (tile : List Layer) (pts : List Pt) (tol : ℚ)
    (layerName : String) : Except String QueryManyResult :=
  if layerName = "" then .error "options.layer is required"
  else
    match tile.find? (fun l => l.name == layerName) with
    | none => .error "Could not find layer in vector tile"
    | some l =>
        let st := scanFeatures D pts.enum tol l.name
          (queryManyCandidates l pts tol) 0 ([], [])
        .ok ⟨st.1, st.2.map fun e => (e.1, sortHits e.2)⟩

/-- Structural validity errors reported by VectorTile::info
(mapnik::vector_tile_impl::validity_error values used in lines 6626-6765).
-/
inductive VErr where
  | layerHasUnsupportedVersion : VErr
  | tileRepeatedLayerNames : VErr
  | tileHasDifferentVersions : VErr
  | tileHasUnknownTag : VErr
  | invalidPbfBuffer : VErr
deriving DecidableEq, Repr

/-- Top-level fields of a decoded tile protobuf message, as the info loop
consumes them (the protozero byte-level decoding is external; a LAYERS field
carries the layer name and version extracted by get_layer_name_and_version,
any other tag is an unknown tag). -/
inductive TileField where
  | layerField : String → Nat → TileField
  | unknownTag : TileField
deriving DecidableEq, Repr

/-- std::set insert: a no-op when the element is present. -/
def setInsert {α : Type} [DecidableEq α] (s : List α) (a : α) : List α :=
  if a ∈ s then s else s ++ [a]

/-- Output of VectorTile::info relevant to the claims: the per-layer
(name, version) records, the tile-level structural error set and the
resulting errors flag. -/
structure InfoOut where
  layers : List (String × Nat)
  has_layer_errors : Bool
  tile_errors : List VErr
  errors : Bool
deriving DecidableEq, Repr

/-- Main loop of VectorTile::info (lines 6663-6745) over the decoded
top-level fields, with the state the source threads through it: the set of
seen layer names, the first_layer flag, the running version (initially 1),
the accumulated layer records, the has_errors flag fed by per-layer errors,
and the tile-level error set.  Per layer: the running version outside [1,2]
contributes a per-layer unsupported-version error (the source checks the
running `version` variable here); a non-empty name already seen inserts
TILE_REPEATED_LAYER_NAMES; the first layer fixes the running version and any
later layer with a different version inserts TILE_HAS_DIFFERENT_VERSIONS;
an unknown tag inserts TILE_HAS_UNKNOWN_TAG.  At the end errors is
has_errors || the tile-level error set is non-empty (line 6752).  The
per-layer feature counting of layer_is_valid is external mapnik-vector-tile
code and contributes nothing the claims need. -/
def infoScan : List TileField → List String → Bool → Nat →
    List (String × Nat) → Bool → List VErr → InfoOut
  | [], _, _, _, layers, he, errs => ⟨layers, he, errs, he ∨ errs ≠ []⟩
  | .layerField name ver :: rest, names, first, version, layers, he, errs =>
      infoScan rest
        (if name ≠ "" ∧ name ∉ names then names ++ [name] else names)
        false
        (if first then ver else version)
        (layers ++ [(name, ver)])
        (he || decide (2 < version) || decide (version < 1))
        (let errs2 :=
          if name ≠ "" ∧ name ∈ names then
            setInsert errs .tileRepeatedLayerNames
          else errs
        if ¬ first ∧ version ≠ ver then
          setInsert errs2 .tileHasDifferentVersions
        else errs2)
  | .unknownTag :: rest, names, first, version, layers, he, errs =>
      infoScan rest names first version layers he
        (setInsert errs .tileHasUnknownTag)

/-- VectorTile::info as a total function of the decoded tile message (the
static entry point never throws for the conditions it detects: decode
failures of the external protozero reader are caught and turned into
INVALID_PBF_BUFFER, a path outside this model of an already-decoded
message). -/
def infoOf (msg : List TileField) : InfoOut :=
  infoScan msg [] true 1 [] false []

/-- Names of the layer fields of a decoded tile message, in order. -/
def layerNames (msg : List TileField) : List String :=
  msg.filterMap fun f =>
    match f with
    | .layerField m _ => some m
    | .unknownTag => none

/-- External geometry-validity services used by visitor_geom_valid:
mapnik::geometry::is_valid fills a diagnostic message and returns whether
the geometry is OGC-valid; mapnik::util::to_geojson renders a feature (id
and geometry) as a GeoJSON Feature string.  Both are mapnik library code,
external to this repository; the diagnostics pipeline is parametric in
them. -/
structure ValidityChk where
  isValid : Geom → Bool × String
  toGeojson : Nat → Geom → String

/-- One finding of the validity diagnostic (not_valid_feature, lines
5578-5592): message, layer name, feature id, GeoJSON of the offending
geometry. -/
structure NotValidFeature where
  message : String
  layer : String
  feature_id : Nat
  geojson : String
deriving DecidableEq, Repr

/-- FeatureCollection wrapper built around the rendered feature by
visitor_geom_valid (lines 5657-5667 and the parallel branches). -/
def geojsonWrap (s : String) : String :=
  "\x7b\"type\":\"FeatureCollection\",\"features\":[" ++ s ++ "]\x7d"

/-- visitor_geom_valid with the default options of
reportGeometryValidity(Sync) (split_multi_features=false, lat_lon=false,
web_merc=false, lines 6169-6237): an empty geometry yields nothing; any
other geometry is checked once with is_valid (the source repeats the same
pure call in a redundant nested if) and, when invalid, contributes exactly
one finding carrying the message, the layer name, the visited feature's id
and the FeatureCollection-wrapped GeoJSON of the geometry.  In this default
path the visited feature is built by feature_factory::create(ctx, 1) at
line 5995, while the wire feature id parsed at line 5976 sits in a local
that is never read again — so the id recorded in the finding, and the id
the GeoJSON is rendered with, is the constant 1, not the feature's id
(which this embedding keeps in the Feature record and discards here,
exactly as the source does). -/
def geomValidFindings (V : ValidityChk) (lname : String) (f : Feature) :
    List NotValidFeature :=
  match f.geom with
  | .empty => []
  | g =>
      let r := V.isValid g
      if r.1 then []
      else [⟨r.2, lname, 1, geojsonWrap (V.toGeojson 1 g)⟩]

/-- layer_not_valid, default path (lines 5941-6003): every feature of the
layer is checked and the findings are accumulated in feature order (the
pbf re-decoding of the geometry is external mapnik-vector-tile code; the
layer model here already holds decoded features). -/
def layerNotValid (V : ValidityChk) (l : Layer) : List NotValidFeature :=
  l.features.flatMap (geomValidFindings V l.name)

/-- vector_tile_not_valid (lines 6040-6059): every layer of the tile is
processed; the diagnostic never stops at the first failure. -/
def vectorTileNotValid (V : ValidityChk) (tile : List Layer) :
    List NotValidFeature :=
  tile.flatMap (layerNotValid V)

/-- Offending feature: non-empty geometry that the external validity check
rejects. -/
def isOffending (V : ValidityChk) (f : Feature) : Bool :=
  decide (f.geom ≠ Geom.empty) && !(V.isValid f.geom).1

/-- All offending features of a tile, each with its layer name, in scan
order. -/
def offendingFeatures (V : ValidityChk) (tile : List Layer) :
    List (String × Feature) :=
  tile.flatMap fun l =>
    (l.features.filter (isOffending V)).map fun f => (l.name, f)

/-- The finding produced for one offending feature: the feature_id field is
the constant 1 of the visited feature (see geomValidFindings), not the
feature's own id. -/
def mkFinding (V : ValidityChk) (e : String × Feature) : NotValidFeature :=
  ⟨(V.isValid e.2.geom).2, e.1, 1,
    geojsonWrap (V.toGeojson 1 e.2.geom)⟩

/-- Self-intersecting bowtie polygon used to evaluate the diagnostics
theorems on a closed input. -/
def bowtiePoly : Geom :=
  Geom.polygon [[⟨0, 0⟩, ⟨2, 2⟩, ⟨2, 0⟩, ⟨0, 2⟩, ⟨0, 0⟩]]

/-- Concrete instance of the external validity services for closed
evaluation: the bowtie polygon is invalid with a non-empty message, every
other geometry is valid. -/
def bowtieChk : ValidityChk :=
  ⟨fun g => if g = bowtiePoly then (false, "self-intersection") else (true, ""),
   fun _ _ => "gj"⟩

/-- Two-point-feature tile used to evaluate the query theorems on closed
inputs: feature 1 sits at the query origin, feature 2 at (3,4). -/
def c1Tile : List Layer :=
  [⟨"a", [⟨1, Geom.point ⟨0, 0⟩⟩, ⟨2, Geom.point ⟨3, 4⟩⟩]⟩]

/-- Geometry types of claim C4: Point/MultiPoint and
LineString/MultiLineString. -/
def isPointOrLine : Geom → Bool
  | .point _ => true
  | .multiPoint _ => true
  | .lineString _ => true
  | .multiLineString _ => true
  | _ => false

/-- Numeric composite options the two entry points range-check (the claims
only concern these; the remaining options are JS type checks and enum-range
checks with no bearing on the scale_factor claim).  A `none` field models an
absent option key. -/
structure CompositeOpts where
  area_threshold : Option ℚ
  simplify_distance : Option ℚ
  scale : Option ℚ
  scale_denominator : Option ℚ
deriving DecidableEq, Repr

/-- Shared shape of the non-negativity checks: absent option passes, a
negative value is a configuration error. -/
def checkNonneg (v : Option ℚ) (msg : String) : Except String Unit :=
  match v with
  | none => .ok ()
  | some q => if q < 0 then .error msg else .ok ()

/-- Option validation of the synchronous entry point
VectorTile::_compositeSync, in source order (lines 554-587 area_threshold
and simplify_distance, lines 646-662 scale — rejected when <= 0 —, lines
663-679 scale_denominator). -/
def compositeSyncValidate (o : CompositeOpts) : Except String Unit :=
  match checkNonneg o.area_threshold "option area_threshold can not be negative" with
  | .error e => .error e
  | .ok _ =>
    match checkNonneg o.simplify_distance "option simplify_distance can not be negative" with
    | .error e => .error e
    | .ok _ =>
      match o.scale with
      | some s =>
          if s ≤ 0 then .error "optional arg scale must be greater then zero"
          else checkNonneg o.scale_denominator
            "optional arg scale_denominator must be non negative number"
      | none => checkNonneg o.scale_denominator
          "optional arg scale_denominator must be non negative number"

/-- Option validation of the asynchronous entry point VectorTile::composite,
in source order (lines 970-984 area_threshold, lines 1037-1051
simplify_distance, lines 1052-1066 scale — rejected only when < 0 —, lines
1067-1081 scale_denominator). -/
def compositeValidate (o : CompositeOpts) : Except String Unit :=
  match checkNonneg o.area_threshold "option area_threshold can not be negative" with
  | .error e => .error e
  | .ok _ =>
    match checkNonneg o.simplify_distance "option simplify_distance can not be negative" with
    | .error e => .error e
    | .ok _ =>
      match checkNonneg o.scale "option scale can not be negative" with
      | .error e => .error e
      | .ok _ => checkNonneg o.scale_denominator
          "option scale_denominator can not be negative"

/-- Synchronous composite entry point: option validation runs first and an
error returns before _composite touches the target tile; only a fully
validated option set reaches the compositing work (abstracted as `work`,
the _composite pipeline of lines 429-500). -/
def compositeSyncRun (work : VT → CompositeOpts → VT) (t : VT)
    (o : CompositeOpts) : VT × Option String :=
  match compositeSyncValidate o with
  | .error e => (t, some e)
  | .ok _ => (work t o, none)

/-- Asynchronous composite entry point: option validation happens on the JS
thread before the worker is queued (lines 961-1100 precede uv_queue_work at
line 1245); an error returns before any compositing work. -/
def compositeRun (work : VT → CompositeOpts → VT) (t : VT)
    (o : CompositeOpts) : VT × Option String :=
  match compositeValidate o with
  | .error e => (t, some e)
  | .ok _ => (work t o, none)

/-- Raw input buffer (bytes abstracted as naturals). -/
abbrev Buf := List Nat

/-- Modelled from the spec: merge_from_compressed_buffer
(mapnik-vector-tile library, external to this repository) decodes and merges
a buffer into the tile it is given; since both callers clear the tile first,
it is modelled as producing the decoded layers or a MalformedInput error.
The claim-deciding fact — that the clear precedes the merge — is in src/. -/
def setDataBody (mergeFn : Buf → Except String (List Layer)) (t : VT)
    (buf : Buf) : VT × Option String :=
  let cleared := { t with layers := ([] : List Layer) }
  match mergeFn buf with
  | .ok ls => ({ cleared with layers := ls }, none)
  | .error e => (cleared, some e)

/-- VectorTile::_setDataSync (lines 4125-4196): an empty buffer is rejected
before anything is touched; otherwise the tile is cleared (d->clear()) and
only then is the buffer merged, so a merge error leaves the cleared tile. -/
def setDataSyncOp (mergeFn : Buf → Except String (List Layer)) (t : VT)
    (buf : Buf) : VT × Option String :=
  if buf.length = 0 then (t, some "cannot accept empty buffer as protobuf")
  else setDataBody mergeFn t buf

/-- VectorTile::EIO_SetData, the worker body of the asynchronous setData
(lines 4304-4325): same empty-buffer guard, then clear followed by merge. -/
def setDataAsyncOp (mergeFn : Buf → Except String (List Layer)) (t : VT)
    (buf : Buf) : VT × Option String :=
  if buf.length = 0 then (t, some "cannot accept empty buffer as protobuf")
  else setDataBody mergeFn t buf

/-!  Theorems.  -/

/-- C2 is refuted by this input: a tile constructed with tile_size 4096 and
buffer_size -1000 satisfies the invariant, yet shrinking tileSize to 100
succeeds (set_tile_size only requires positivity) and leaves a reachable
state with tile_size + 2*buffer_size = -1900 <= 0. -/
theorem c2_counterexample :
    vectorTileNew 0 0 0 (some 4096) (some (-1000)) =
      Except.ok ⟨0, 0, 0, 4096, -1000, []⟩ ∧
    vtInvariant ⟨0, 0, 0, 4096, -1000, []⟩ ∧
    set_tile_size ⟨0, 0, 0, 4096, -1000, []⟩ 100 =
      Except.ok ⟨0, 0, 0, 100, -1000, []⟩ ∧
    ¬ vtInvariant ⟨0, 0, 0, 100, -1000, []⟩ := by
  refine ⟨rfl, by decide, rfl, by decide⟩

/-- C2 (amended): the constructor and the bufferSize setter enforce the
invariant tile_size + 2*buffer_size > 0 — any state they accept satisfies
it, and a violating input fails with a configuration error (the Except
error, producing no new state) — while the tileSize setter only requires
the new tile size to be positive and does not re-check the invariant, so a
tileSize mutation can produce a reachable state violating it. -/
theorem c2_invariant_enforcement :
    (∀ (z x y : Int) (tso bso : Option Int) (t : VT),
        vectorTileNew z x y tso bso = Except.ok t → vtInvariant t) ∧
    (∀ (t : VT) (val : Int) (t2 : VT),
        set_buffer_size t val = Except.ok t2 → vtInvariant t2) ∧
    (∀ (t : VT) (val : Int) (t2 : VT),
        set_tile_size t val = Except.ok t2 →
          0 < t2.tile_size ∧ t2 = { t with tile_size := val }) := by
  refine ⟨?_, ?_, ?_⟩
  · intro z x y tso bso t h
    unfold vectorTileNew at h
    split at h
    · exact absurd h (by simp)
    split at h
    · exact absurd h (by simp)
    split at h
    · exact absurd h (by simp)
    cases tso with
    | some tmp =>
        simp only at h
        split at h
        · exact absurd h (by simp)
        split at h
        · exact absurd h (by simp)
        · rename_i hb
          cases h
          unfold vtInvariant
          dsimp only
          omega
    | none =>
        simp only at h
        split at h
        · exact absurd h (by simp)
        · rename_i hb
          cases h
          unfold vtInvariant
          dsimp only
          omega
  · intro t val t2 h
    unfold set_buffer_size at h
    split at h
    · exact absurd h (by simp)
    · rename_i hb
      cases h
      unfold vtInvariant
      dsimp only
      omega
  · intro t val t2 h
    unfold set_tile_size at h
    split at h
    · exact absurd h (by simp)
    · rename_i hb
      cases h
      refine ⟨?_, rfl⟩
      dsimp only
      omega

/-- Witness for c2_invariant_enforcement at concrete inputs: the default
constructor output satisfies the invariant; setting buffer_size 10 on the
default tile keeps it; setting tile_size 256 yields a positive tile size. -/
theorem c2_invariant_enforcement_witness :
    vtInvariant ⟨0, 0, 0, 4096, 128, []⟩ ∧
    vtInvariant ⟨0, 0, 0, 4096, 10, []⟩ ∧
    (0 < (⟨0, 0, 0, 256, 128, []⟩ : VT).tile_size ∧
      (⟨0, 0, 0, 256, 128, []⟩ : VT) =
        { (⟨0, 0, 0, 4096, 128, []⟩ : VT) with tile_size := 256 }) :=
  ⟨c2_invariant_enforcement.1 0 0 0 none none ⟨0, 0, 0, 4096, 128, []⟩ rfl,
   c2_invariant_enforcement.2.1 ⟨0, 0, 0, 4096, 128, []⟩ 10
     ⟨0, 0, 0, 4096, 10, []⟩ rfl,
   c2_invariant_enforcement.2.2 ⟨0, 0, 0, 4096, 128, []⟩ 256
     ⟨0, 0, 0, 256, 128, []⟩ rfl⟩

/-- C9 is refuted by scale_factor 0 at the asynchronous entry point: the
async option validation only rejects negative scale values, so scale 0
passes validation and the compositing work is reached, while the
synchronous entry point rejects the same options. -/
theorem c9_counterexample :
    compositeValidate ⟨none, none, some 0, none⟩ = Except.ok () ∧
    compositeRun (fun t _ => t) ⟨0, 0, 0, 4096, 128, []⟩
      ⟨none, none, some 0, none⟩ = (⟨0, 0, 0, 4096, 128, []⟩, none) ∧
    compositeSyncValidate ⟨none, none, some 0, none⟩ =
      Except.error "optional arg scale must be greater then zero" :=
  ⟨rfl, rfl, rfl⟩

/-- C9 (amended): a scale option value not strictly greater than 0 is
rejected by the synchronous composite entry point before any compositing
work begins, leaving the target tile unchanged; the asynchronous entry
point only rejects values strictly below 0 the same way (scale 0 is
accepted there). -/
theorem c9_scale_validation :
    (∀ (work : VT → CompositeOpts → VT) (t : VT) (o : CompositeOpts) (s : ℚ),
        o.scale = some s → s ≤ 0 →
        ∃ e, compositeSyncRun work t o = (t, some e)) ∧
    (∀ (work : VT → CompositeOpts → VT) (t : VT) (o : CompositeOpts) (s : ℚ),
        o.scale = some s → s < 0 →
        ∃ e, compositeRun work t o = (t, some e)) := by
  constructor
  · intro work t o s hs hle
    unfold compositeSyncRun compositeSyncValidate
    cases ha : checkNonneg o.area_threshold
        "option area_threshold can not be negative" with
    | error e => exact ⟨e, rfl⟩
    | ok u =>
      cases hd : checkNonneg o.simplify_distance
          "option simplify_distance can not be negative" with
      | error e => exact ⟨e, rfl⟩
      | ok u2 =>
        rw [hs]
        simp only [if_pos hle]
        exact ⟨_, rfl⟩
  · intro work t o s hs hlt
    unfold compositeRun compositeValidate
    cases ha : checkNonneg o.area_threshold
        "option area_threshold can not be negative" with
    | error e => exact ⟨e, rfl⟩
    | ok u =>
      cases hd : checkNonneg o.simplify_distance
          "option simplify_distance can not be negative" with
      | error e => exact ⟨e, rfl⟩
      | ok u2 =>
        have hsc : checkNonneg o.scale "option scale can not be negative" =
            Except.error "option scale can not be negative" := by
          unfold checkNonneg
          rw [hs]
          simp [hlt]
        rw [hsc]
        exact ⟨_, rfl⟩

/-- Witness for c9_scale_validation: scale 0 at the synchronous entry and
scale -1 at the asynchronous entry are both rejected with the target tile
unchanged. -/
theorem c9_scale_validation_witness :
    (∃ e, compositeSyncRun (fun t _ => t) ⟨0, 0, 0, 4096, 128, []⟩
        ⟨none, none, some 0, none⟩ = (⟨0, 0, 0, 4096, 128, []⟩, some e)) ∧
    (∃ e, compositeRun (fun t _ => t) ⟨0, 0, 0, 4096, 128, []⟩
        ⟨none, none, some (-1), none⟩ = (⟨0, 0, 0, 4096, 128, []⟩, some e)) :=
  ⟨c9_scale_validation.1 (fun t _ => t) ⟨0, 0, 0, 4096, 128, []⟩
      ⟨none, none, some 0, none⟩ 0 rfl (by norm_num),
   c9_scale_validation.2 (fun t _ => t) ⟨0, 0, 0, 4096, 128, []⟩
      ⟨none, none, some (-1), none⟩ (-1) rfl (by norm_num)⟩

/-- C10: setData / setDataSync clear the tile before merging, so a merge
error on a non-empty buffer leaves the tile empty (its previous layers are
dropped), not in its pre-call state. -/
theorem c10_setdata_not_atomic :
    ∀ (mergeFn : Buf → Except String (List Layer)) (t : VT) (buf : Buf)
      (e : String),
      buf ≠ [] → mergeFn buf = Except.error e →
      setDataSyncOp mergeFn t buf = ({ t with layers := [] }, some e) ∧
      setDataAsyncOp mergeFn t buf = ({ t with layers := [] }, some e) := by
  intro mergeFn t buf e hb hm
  have hlen : ¬ buf.length = 0 := by
    simpa [List.length_eq_zero] using hb
  constructor
  · unfold setDataSyncOp
    rw [if_neg hlen]
    unfold setDataBody
    rw [hm]
  · unfold setDataAsyncOp
    rw [if_neg hlen]
    unfold setDataBody
    rw [hm]

/-- Membership is preserved by a set insert. -/
theorem setInsert_mem_of_mem {α : Type} [DecidableEq α] {s : List α}
    {a b : α} (h : b ∈ s) : b ∈ setInsert s a := by
  unfold setInsert
  split
  · exact h
  · exact List.mem_append_left _ h

/-- The inserted element is a member after a set insert. -/
theorem setInsert_mem_self {α : Type} [DecidableEq α] (s : List α) (a : α) :
    a ∈ setInsert s a := by
  unfold setInsert
  split
  · assumption
  · simp

/-- Generalized repeated-layer-name lemma for the info scan: once
TILE_REPEATED_LAYER_NAMES is in the accumulated error set, or the remaining
fields together with the already-seen names still contain a non-empty name
at least twice, the final output carries the error and the errors flag. -/
theorem infoScan_repeated_general :
    ∀ (fields : List TileField) (names : List String) (first : Bool)
      (version : Nat) (layers : List (String × Nat)) (he : Bool)
      (errs : List VErr) (n : String),
      n ≠ "" →
      (VErr.tileRepeatedLayerNames ∈ errs ∨
        2 ≤ (layerNames fields).count n + (if n ∈ names then 1 else 0)) →
      VErr.tileRepeatedLayerNames ∈
          (infoScan fields names first version layers he errs).tile_errors ∧
        (infoScan fields names first version layers he errs).errors = true := by
  intro fields
  induction fields with
  | nil =>
      intro names first version layers he errs n hn h
      rcases h with h | h
      · refine ⟨h, ?_⟩
        simp only [infoScan]
        simp [List.ne_nil_of_mem h]
      · exfalso
        simp only [layerNames, List.filterMap_nil, List.count_nil] at h
        split at h <;> omega
  | cons fld rest ih =>
      intro names first version layers he errs n hn h
      cases fld with
      | unknownTag =>
          simp only [infoScan]
          apply ih
          · exact hn
          · rcases h with h | h
            · exact Or.inl (setInsert_mem_of_mem h)
            · refine Or.inr ?_
              simpa [layerNames] using h
      | layerField m v =>
          simp only [infoScan]
          rcases h with h | h
          · refine ih _ _ _ _ _ _ n hn (Or.inl ?_)
            have h2 : VErr.tileRepeatedLayerNames ∈
                (if m ≠ "" ∧ m ∈ names then
                  setInsert errs .tileRepeatedLayerNames else errs) := by
              split
              · exact setInsert_mem_of_mem h
              · exact h
            split
            · exact setInsert_mem_of_mem h2
            · exact h2
          · have hcount : (layerNames (TileField.layerField m v :: rest)).count n =
                (layerNames rest).count n + (if m = n then 1 else 0) := by
              simp only [layerNames, List.filterMap_cons]
              by_cases hmn : m = n
              · simp [hmn, List.count_cons]
              · simp [List.count_cons, hmn]
            rw [hcount] at h
            by_cases hmn : m = n
            · subst hmn
              by_cases hmem : m ∈ names
              · refine ih _ _ _ _ _ _ m hn (Or.inl ?_)
                have h2 : VErr.tileRepeatedLayerNames ∈
                    (if m ≠ "" ∧ m ∈ names then
                      setInsert errs .tileRepeatedLayerNames else errs) := by
                  rw [if_pos ⟨hn, hmem⟩]
                  exact setInsert_mem_self errs _
                split
                · exact setInsert_mem_of_mem h2
                · exact h2
              · refine ih _ _ _ _ _ _ m hn (Or.inr ?_)
                have hcond : m ≠ "" ∧ m ∉ names := ⟨hn, hmem⟩
                rw [if_pos hcond]
                have hmem2 : m ∈ names ++ [m] := by simp
                rw [if_pos hmem2]
                rw [if_pos rfl, if_neg hmem] at h
                omega
            · refine ih _ _ _ _ _ _ n hn (Or.inr ?_)
              have hsame : (n ∈ (if m ≠ "" ∧ m ∉ names then names ++ [m] else names)) ↔
                  n ∈ names := by
                split
                · simp [Ne.symm hmn]
                · exact Iff.rfl
              simp only [if_neg hmn, add_zero] at h
              by_cases hmem : n ∈ names
              · rw [if_pos (hsame.mpr hmem)]
                rw [if_pos hmem] at h
                omega
              · rw [if_neg (fun hc => hmem (hsame.mp hc))]
                rw [if_neg hmem] at h
                omega

/-- C7: a decoded tile message containing two layers with the same
non-empty name makes the static info() check report the structural error
TILE_REPEATED_LAYER_NAMES in tile_errors and set errors=true in the
returned object (info never throws for the conditions it detects: its
model is a total function). -/
theorem c7_repeated_layer_names (msg : List TileField) (n : String)
    (hne : n ≠ "") (hcount : 2 ≤ (layerNames msg).count n) :
    VErr.tileRepeatedLayerNames ∈ (infoOf msg).tile_errors ∧
      (infoOf msg).errors = true :=
  infoScan_repeated_general msg [] true 1 [] false [] n hne
    (Or.inr (by simpa using hcount))

/-- Witness for c7_repeated_layer_names: a message with two layers both
named roads. -/
theorem c7_repeated_layer_names_witness :
    ("roads" : String) ≠ "" ∧
    2 ≤ (layerNames [TileField.layerField "roads" 2,
      TileField.layerField "roads" 2]).count "roads" ∧
    (VErr.tileRepeatedLayerNames ∈
        (infoOf [TileField.layerField "roads" 2,
          TileField.layerField "roads" 2]).tile_errors ∧
      (infoOf [TileField.layerField "roads" 2,
        TileField.layerField "roads" 2]).errors = true) :=
  ⟨by decide, by decide,
   c7_repeated_layer_names
     [TileField.layerField "roads" 2, TileField.layerField "roads" 2]
     "roads" (by decide) (by decide)⟩

/-- The per-feature findings are exactly one finding per offending feature.
-/
theorem geomValidFindings_eq (V : ValidityChk) (ln : String) (f : Feature) :
    geomValidFindings V ln f =
      if isOffending V f then [mkFinding V (ln, f)] else [] := by
  obtain ⟨fid, g⟩ := f
  cases g <;>
    simp only [geomValidFindings, isOffending, mkFinding] <;>
    first
    | (simp
       done)
    | (split <;> split <;> simp_all)

/-- Layer-level diagnostics list one finding per offending feature of the
layer, in feature order. -/
theorem layerNotValid_eq (V : ValidityChk) (l : Layer) :
    layerNotValid V l =
      ((l.features.filter (isOffending V)).map fun f => (l.name, f)).map
        (mkFinding V) := by
  unfold layerNotValid
  induction l.features with
  | nil => rfl
  | cons f fs ih =>
      rw [List.flatMap_cons, geomValidFindings_eq, List.filter_cons]
      by_cases hf : isOffending V f
      · simp only [hf, if_pos]
        simp [ih]
      · simp only [hf]
        simp [ih, hf]

/-- Tile-level diagnostics list one finding per offending feature across all
layers. -/
theorem vectorTileNotValid_eq (V : ValidityChk) (tile : List Layer) :
    vectorTileNotValid V tile =
      (offendingFeatures V tile).map (mkFinding V) := by
  unfold vectorTileNotValid offendingFeatures
  induction tile with
  | nil => rfl
  | cons l ls ih =>
      rw [List.flatMap_cons, List.flatMap_cons, List.map_append, layerNotValid_eq, ih]

/-- C8 fails on the program at this input: a tile whose two layers each
hold a self-intersecting bowtie polygon feature, with wire feature ids 7
and 9.  The diagnostic is indeed exhaustive — each offending feature
yields exactly one finding, in scan order, with its layer name, a
non-empty message and the FeatureCollection GeoJSON — but every finding
carries feature_id 1, never the feature's id: the default validity path
parses the wire feature id into a local it never reads (line 5976) and
hands the visitor a feature built by feature_factory::create(ctx, 1)
(line 5995), whose id the finding records. -/
theorem c8_feature_id_bug :
    vectorTileNotValid bowtieChk
        [⟨"demo", [⟨7, bowtiePoly⟩]⟩, ⟨"demo2", [⟨9, bowtiePoly⟩]⟩] =
      [⟨"self-intersection", "demo", 1, geojsonWrap "gj"⟩,
       ⟨"self-intersection", "demo2", 1, geojsonWrap "gj"⟩] ∧
    ∀ nv ∈ vectorTileNotValid bowtieChk
        [⟨"demo", [⟨7, bowtiePoly⟩]⟩, ⟨"demo2", [⟨9, bowtiePoly⟩]⟩],
      nv.feature_id = 1 := by
  refine ⟨by decide, by decide⟩

/-- C3 is refuted by this input: the polygon whose exterior ring is a square
far from the query point and whose interior ring surrounds the query point.
Even-odd ray-casting over ALL rings gives odd total parity — the point is
"strictly inside" in the sense the claim words it — yet the polygon case
returns no hit (distance -1, not 0), because the source returns early when
the parity after the exterior ring alone is even. -/
theorem c3_counterexample :
    evenOddAllRings 1 1
        [[⟨10, 10⟩, ⟨12, 10⟩, ⟨12, 12⟩, ⟨10, 12⟩, ⟨10, 10⟩],
         [⟨0, 0⟩, ⟨2, 0⟩, ⟨2, 2⟩, ⟨0, 2⟩, ⟨0, 0⟩]] = true ∧
    4 ≤ ([⟨10, 10⟩, ⟨12, 10⟩, ⟨12, 12⟩, ⟨10, 12⟩, ⟨10, 10⟩] : Ring).length ∧
    (p2pPolygon 1 1
        [[⟨10, 10⟩, ⟨12, 10⟩, ⟨12, 12⟩, ⟨10, 12⟩, ⟨10, 10⟩],
         [⟨0, 0⟩, ⟨2, 0⟩, ⟨2, 2⟩, ⟨0, 2⟩, ⟨0, 0⟩]]).distance ≠ 0 ∧
    (p2pPolygon 1 1
        [[⟨10, 10⟩, ⟨12, 10⟩, ⟨12, 12⟩, ⟨10, 12⟩, ⟨10, 10⟩],
         [⟨0, 0⟩, ⟨2, 0⟩, ⟨2, 2⟩, ⟨0, 2⟩, ⟨0, 0⟩]]).distance < 0 := by
  refine ⟨?_, by decide, ?_, ?_⟩ <;>
    norm_num [evenOddAllRings, ringCross, ringsCross, edges, pip, p2pPolygon,
      p2pInit]

/-- C3 (amended): the polygon case of the point-to-geometry distance is
characterized as follows.  A polygon whose exterior ring has fewer than 4
points contributes no hit.  When the exterior ring has at least 4 points,
the crossing parity of the exterior ring is computed first: even parity
(query point outside the exterior ring) returns no hit immediately,
regardless of the interior rings; with odd exterior parity, parity keeps
accumulating over interior rings with at least 4 points (shorter interior
rings are skipped), and the distance is 0 exactly when the total parity is
odd — in particular a point inside the exterior ring whose parity is
flipped back by a single surrounding hole ring gets no hit. -/
theorem c3_polygon_containment (x y : ℚ) (r0 : Ring) (rs : List Ring) :
    (r0.length < 4 → p2pPolygon x y (r0 :: rs) = p2pInit) ∧
    (4 ≤ r0.length → ringCross x y false r0 = false →
      p2pPolygon x y (r0 :: rs) = p2pInit) ∧
    (4 ≤ r0.length → ringCross x y false r0 = true →
      ringsCross x y true rs = true →
      p2pPolygon x y (r0 :: rs) = { p2pInit with distance := 0 }) ∧
    (4 ≤ r0.length → ringCross x y false r0 = true →
      ringsCross x y true rs = false →
      p2pPolygon x y (r0 :: rs) = p2pInit) := by
  refine ⟨?_, ?_, ?_, ?_⟩
  · intro h1
    simp [p2pPolygon, h1]
  · intro h1 h2
    have hlt : ¬ r0.length < 4 := by omega
    simp [p2pPolygon, hlt, h2]
  · intro h1 h2 h3
    have hlt : ¬ r0.length < 4 := by omega
    simp [p2pPolygon, hlt, h2, h3]
  · intro h1 h2 h3
    have hlt : ¬ r0.length < 4 := by omega
    simp [p2pPolygon, hlt, h2, h3]

/-- Witness for c3_polygon_containment: the query point (1,1) strictly
inside the plain square ring gets distance 0; the far point (10,10) outside
it gets no hit. -/
theorem c3_polygon_containment_witness :
    p2pPolygon 1 1 [[⟨0, 0⟩, ⟨4, 0⟩, ⟨4, 4⟩, ⟨0, 4⟩, ⟨0, 0⟩]] =
      { p2pInit with distance := 0 } ∧
    p2pPolygon 10 10 [[⟨0, 0⟩, ⟨4, 0⟩, ⟨4, 4⟩, ⟨0, 4⟩, ⟨0, 0⟩]] = p2pInit :=
  ⟨(c3_polygon_containment 1 1 [⟨0, 0⟩, ⟨4, 0⟩, ⟨4, 4⟩, ⟨0, 4⟩, ⟨0, 0⟩]
      []).2.2.1 (by decide) (by norm_num [ringCross, edges, pip])
      (by norm_num [ringsCross]),
   (c3_polygon_containment 10 10 [⟨0, 0⟩, ⟨4, 0⟩, ⟨4, 4⟩, ⟨0, 4⟩, ⟨0, 0⟩]
      []).2.1 (by decide) (by norm_num [ringCross, edges, pip])⟩

/-- The single-point query output is sorted by ascending distance. -/
theorem sorted_queryTile (D : DistFns) (tile : List Layer) (x y tol : ℚ)
    (ln : String) : List.Sorted distLE (queryTile D tile x y tol ln) := by
  unfold queryTile sortByDist
  split
  · exact List.sorted_nil
  · exact List.sorted_insertionSort distLE _

/-- C1: for every tile and every single-point query invocation, the returned
result list is sorted by ascending distance: result i has distance at most
that of result j whenever i < j. -/
theorem c1_query_sorted (D : DistFns) (tile : List Layer) (x y tol : ℚ)
    (ln : String) (i j : Fin (queryTile D tile x y tol ln).length)
    (hij : i < j) :
    ((queryTile D tile x y tol ln).get i).distance ≤
      ((queryTile D tile x y tol ln).get j).distance :=
  List.pairwise_iff_get.mp (sorted_queryTile D tile x y tol ln) i j hij

/-- The closed query of the witness for c1_query_sorted returns two results.
-/
theorem c1_query_eval : queryTile sqFns c1Tile 0 0 25 "" =
    [⟨0, 0, 0, "a", ⟨1, Geom.point ⟨0, 0⟩⟩⟩,
     ⟨25, 3, 4, "a", ⟨2, Geom.point ⟨3, 4⟩⟩⟩] := by
  norm_num [queryTile, gatherQuery, sortByDist, layerHits, featuresAtPoint,
    envOf, geomPoints, boxIntersects, queryBox, p2pDist, p2pPoint, sqFns,
    c1Tile, distLE, List.filter, List.filterMap]

/-- Witness for c1_query_sorted: a two-feature layer queried with the
squared-euclidean metric instance produces two results whose distances are
in ascending order. -/
theorem c1_query_sorted_witness :
    ((queryTile sqFns c1Tile 0 0 25 "").get
        ⟨0, by rw [c1_query_eval]; norm_num⟩).distance ≤
      ((queryTile sqFns c1Tile 0 0 25 "").get
        ⟨1, by rw [c1_query_eval]; norm_num⟩).distance :=
  c1_query_sorted sqFns c1Tile 0 0 25 ""
    ⟨0, by rw [c1_query_eval]; norm_num⟩
    ⟨1, by rw [c1_query_eval]; norm_num⟩
    (by simp [Fin.lt_def])

/-- Sorting does not change membership (std::sort permutes). -/
theorem mem_sortByDist {r : QueryResult} {l : List QueryResult} :
    r ∈ sortByDist l ↔ r ∈ l :=
  (List.perm_insertionSort distLE l).mem_iff

/-- Growing the tolerance grows the bounding-box prefilter of the
single-point query. -/
theorem featuresAtPoint_mono (l : Layer) (x y : ℚ) {t t' : ℚ}
    (htol : t ≤ t') {f : Feature} (h : f ∈ featuresAtPoint l x y t) :
    f ∈ featuresAtPoint l x y t' := by
  unfold featuresAtPoint at h ⊢
  rw [List.mem_filter] at h ⊢
  refine ⟨h.1, ?_⟩
  have h2 := h.2
  cases henv : envOf f.geom with
  | none => rw [henv] at h2; exact absurd h2 (by simp)
  | some b =>
      rw [henv] at h2
      dsimp only at h2 ⊢
      unfold boxIntersects queryBox at h2 ⊢
      rw [decide_eq_true_eq] at h2 ⊢
      obtain ⟨h1, h2, h3, h4⟩ := h2
      dsimp only at h1 h2 h3 h4 ⊢
      refine ⟨by linarith, by linarith, by linarith, by linarith⟩

/-- Growing the tolerance never loses a per-layer hit: the retained result
record is unchanged (the distance does not depend on the tolerance). -/
theorem layerHits_mono (D : DistFns) (l : Layer) (x y : ℚ) {t t' : ℚ}
    (htol : t ≤ t') {r : QueryResult} (h : r ∈ layerHits D l x y t) :
    r ∈ layerHits D l x y t' := by
  unfold layerHits at h ⊢
  rw [List.mem_filterMap] at h ⊢
  obtain ⟨f, hf, heq⟩ := h
  refine ⟨f, featuresAtPoint_mono l x y htol hf, ?_⟩
  by_cases hc : 0 ≤ (p2pDist D x y f.geom).distance ∧
      (p2pDist D x y f.geom).distance ≤ t
  · rw [if_pos hc] at heq
    rw [if_pos ⟨hc.1, le_trans hc.2 htol⟩]
    exact heq
  · rw [if_neg hc] at heq
    exact absurd heq (by simp)

/-- C4: query monotonicity in the tolerance — a Point/MultiPoint or
LineString/MultiLineString feature appearing in the single-point query
result at tolerance t also appears at every tolerance t2 >= t. -/
theorem c4_query_monotone (D : DistFns) (tile : List Layer) (x y t t2 : ℚ)
    (ln : String) (f : Feature) (htype : isPointOrLine f.geom = true)
    (htol : t ≤ t2)
    (h : ∃ r ∈ queryTile D tile x y t ln, r.feature = f) :
    ∃ r ∈ queryTile D tile x y t2 ln, r.feature = f := by
  obtain ⟨r, hr, hrf⟩ := h
  unfold queryTile at hr ⊢
  by_cases htile : tile = []
  · rw [if_pos htile] at hr
    exact absurd hr (by simp)
  · rw [if_neg htile] at hr ⊢
    rw [mem_sortByDist] at hr
    refine ⟨r, mem_sortByDist.mpr ?_, hrf⟩
    unfold gatherQuery at hr ⊢
    by_cases hln : ln ≠ ""
    · rw [if_pos hln] at hr ⊢
      cases hfind : tile.find? (fun l => l.name == ln) with
      | none =>
          rw [hfind] at hr
          exact absurd hr (by simp)
      | some l =>
          rw [hfind] at hr
          dsimp only at hr ⊢
          exact layerHits_mono D l x y htol hr
    · rw [if_neg hln] at hr ⊢
      obtain ⟨l, hl, hrl⟩ := List.mem_flatMap.mp hr
      exact List.mem_flatMap.mpr ⟨l, hl, layerHits_mono D l x y htol hrl⟩

/-- Witness for c4_query_monotone: the point feature at the query origin is
returned at tolerance 0 and stays in the result at tolerance 1. -/
theorem c4_query_monotone_witness :
    isPointOrLine (Geom.point (⟨0, 0⟩ : Pt)) = true ∧
    (0 : ℚ) ≤ 1 ∧
    ∃ r ∈ queryTile sqFns [⟨"a", [⟨1, Geom.point ⟨0, 0⟩⟩]⟩] 0 0 1 "a",
      r.feature = (⟨1, Geom.point ⟨0, 0⟩⟩ : Feature) :=
  ⟨rfl, by norm_num,
   c4_query_monotone sqFns [⟨"a", [⟨1, Geom.point ⟨0, 0⟩⟩]⟩] 0 0 0 1 "a"
     ⟨1, Geom.point ⟨0, 0⟩⟩ rfl (by norm_num)
     ⟨⟨0, 0, 0, "a", ⟨1, Geom.point ⟨0, 0⟩⟩⟩, by
       norm_num [queryTile, gatherQuery, sortByDist, layerHits,
         featuresAtPoint, envOf, geomPoints, boxIntersects, queryBox,
         p2pDist, p2pPoint, sqFns, List.filter, List.filterMap, List.find?],
       rfl⟩⟩

/-- std::map insert is a no-op when the key is present. -/
theorem featInsert_present {m : List (Nat × QueryResult)} {k : Nat}
    (h : k ∈ m.map Prod.fst) (v : QueryResult) : featInsert m k v = m := by
  unfold featInsert
  rw [if_pos]
  rw [List.any_eq_true]
  obtain ⟨e, he, hek⟩ := List.mem_map.mp h
  exact ⟨e, he, by simp [hek]⟩

/-- std::map insert appends when the key is absent. -/
theorem featInsert_absent {m : List (Nat × QueryResult)} {k : Nat}
    (h : k ∉ m.map Prod.fst) (v : QueryResult) :
    featInsert m k v = m ++ [(k, v)] := by
  unfold featInsert
  rw [if_neg]
  intro hc
  rw [List.any_eq_true] at hc
  obtain ⟨e, he, hek⟩ := hc
  exact h (List.mem_map.mpr ⟨e, he, by simpa using hek⟩)

/-- Once the running feature index is already a key of the features map, the
point loop never changes the features map, and the has_hit flag ends true
exactly when the flag was already set or some remaining point hits. -/
theorem processFeature_present (D : DistFns) (tol : ℚ) (ln : String)
    (f : Feature) (idx : Nat) :
    ∀ (pts : List (Nat × Pt))
      (st : (List (Nat × QueryResult) × List (Nat × List QueryHit)) × Bool),
      idx ∈ st.1.1.map Prod.fst →
      (processFeature D pts tol ln f idx st).1.1 = st.1.1 ∧
      (processFeature D pts tol ln f idx st).2 =
        (st.2 || pts.any fun pp => hitB D tol f pp.2) := by
  intro pts
  induction pts with
  | nil =>
      intro st h
      simp [processFeature]
  | cons pp rest ih =>
      intro st h
      simp only [processFeature]
      by_cases hc : 0 ≤ (p2pDist D pp.2.x pp.2.y f.geom).distance ∧
          (p2pDist D pp.2.x pp.2.y f.geom).distance ≤ tol
      · rw [if_pos hc]
        have hkeep := featInsert_present h ⟨0, 0, 0, ln, f⟩
        have hmem2 : idx ∈ ((featInsert st.1.1 idx ⟨0, 0, 0, ln, f⟩,
            hitsAppend st.1.2 pp.1
              ⟨(p2pDist D pp.2.x pp.2.y f.geom).distance, idx⟩), true).1.1.map
              Prod.fst := by
          dsimp only
          rw [hkeep]
          exact h
        obtain ⟨ha, hb⟩ := ih _ hmem2
        have hbt : hitB D tol f pp.2 = true := by
          unfold hitB
          exact decide_eq_true hc
        constructor
        · rw [ha]
          dsimp only
          exact hkeep
        · rw [hb]
          simp only [List.any_cons, hbt, Bool.true_or, Bool.or_true]
      · rw [if_neg hc]
        obtain ⟨ha, hb⟩ := ih st h
        have hbf : hitB D tol f pp.2 = false := by
          unfold hitB
          exact decide_eq_false hc
        refine ⟨ha, ?_⟩
        rw [hb]
        simp only [List.any_cons, hbf, Bool.false_or]

/-- With the running feature index absent from the features map and the
has_hit flag clear, the point loop appends the feature under that index
exactly when some point hits, and the final flag reports it. -/
theorem processFeature_absent (D : DistFns) (tol : ℚ) (ln : String)
    (f : Feature) (idx : Nat) :
    ∀ (pts : List (Nat × Pt))
      (st : List (Nat × QueryResult) × List (Nat × List QueryHit)),
      idx ∉ st.1.map Prod.fst →
      (processFeature D pts tol ln f idx (st, false)).1.1 =
        (if pts.any (fun pp => hitB D tol f pp.2) then
          st.1 ++ [(idx, ⟨0, 0, 0, ln, f⟩)] else st.1) ∧
      (processFeature D pts tol ln f idx (st, false)).2 =
        pts.any (fun pp => hitB D tol f pp.2) := by
  intro pts
  induction pts with
  | nil =>
      intro st h
      simp [processFeature]
  | cons pp rest ih =>
      intro st h
      simp only [processFeature]
      by_cases hc : 0 ≤ (p2pDist D pp.2.x pp.2.y f.geom).distance ∧
          (p2pDist D pp.2.x pp.2.y f.geom).distance ≤ tol
      · rw [if_pos hc]
        have happ := featInsert_absent h (⟨0, 0, 0, ln, f⟩ : QueryResult)
        have hbt : hitB D tol f pp.2 = true := by
          unfold hitB
          exact decide_eq_true hc
        have hmem2 : idx ∈ ((featInsert st.1 idx ⟨0, 0, 0, ln, f⟩,
            hitsAppend st.2 pp.1
              ⟨(p2pDist D pp.2.x pp.2.y f.geom).distance, idx⟩), true).1.1.map
              Prod.fst := by
          dsimp only
          rw [happ]
          simp
        obtain ⟨ha, hb⟩ := processFeature_present D tol ln f idx rest _ hmem2
        constructor
        · rw [ha]
          dsimp only
          rw [happ]
          simp only [List.any_cons, hbt, Bool.true_or, if_pos]
        · rw [hb]
          simp only [List.any_cons, hbt, Bool.true_or, Bool.or_true]
      · rw [if_neg hc]
        have hbf : hitB D tol f pp.2 = false := by
          unfold hitB
          exact decide_eq_false hc
        obtain ⟨ha, hb⟩ := ih st h
        constructor
        · rw [ha]
          simp only [List.any_cons, hbf, Bool.false_or]
        · rw [hb]
          simp only [List.any_cons, hbf, Bool.false_or]

/-- The features map keeps dense keys 0..n-1 in insertion order through the
candidate scan. -/
theorem scanFeatures_keys (D : DistFns) (pts : List (Nat × Pt)) (tol : ℚ)
    (ln : String) :
    ∀ (cands : List Feature) (idx : Nat)
      (st : List (Nat × QueryResult) × List (Nat × List QueryHit)),
      st.1.map Prod.fst = List.range idx →
      (scanFeatures D pts tol ln cands idx st).1.map Prod.fst =
        List.range ((scanFeatures D pts tol ln cands idx st).1.length) := by
  intro cands
  induction cands with
  | nil =>
      intro idx st h
      simp only [scanFeatures]
      have hlen : st.1.length = idx := by
        have h2 := congrArg List.length h
        simpa using h2
      rw [h, hlen]
  | cons g gs ih =>
      intro idx st h
      simp only [scanFeatures]
      have hnot : idx ∉ st.1.map Prod.fst := by
        rw [h]
        simp
      obtain ⟨ha, hb⟩ := processFeature_absent D tol ln g idx pts st hnot
      by_cases hany : pts.any (fun pp => hitB D tol g pp.2) = true
      · have hif : (if (processFeature D pts tol ln g idx (st, false)).2 = true
            then idx + 1 else idx) = idx + 1 := by
          rw [hb]
          simp [hany]
        rw [hif]
        refine ih (idx + 1) _ ?_
        rw [ha]
        rw [if_pos hany]
        rw [List.map_append, h]
        simp [List.range_succ]
      · have hif : (if (processFeature D pts tol ln g idx (st, false)).2 = true
            then idx + 1 else idx) = idx := by
          rw [hb]
          simp [hany]
        rw [hif]
        refine ih idx _ ?_
        rw [ha]
        rw [if_neg hany]
        exact h

/-- A feature record appears in the features map produced by the candidate
scan exactly when it was already there or some scanned candidate equal to
the feature hits some query point. -/
theorem scanFeatures_mem (D : DistFns) (pts : List (Nat × Pt)) (tol : ℚ)
    (ln : String) (f : Feature) :
    ∀ (cands : List Feature) (idx : Nat)
      (st : List (Nat × QueryResult) × List (Nat × List QueryHit)),
      st.1.map Prod.fst = List.range idx →
      ((∃ k res, (k, res) ∈ (scanFeatures D pts tol ln cands idx st).1 ∧
          res.feature = f) ↔
        ((∃ k res, (k, res) ∈ st.1 ∧ res.feature = f) ∨
          (f ∈ cands ∧ pts.any (fun pp => hitB D tol f pp.2) = true))) := by
  intro cands
  induction cands with
  | nil =>
      intro idx st h
      simp [scanFeatures]
  | cons g gs ih =>
      intro idx st h
      simp only [scanFeatures]
      have hnot : idx ∉ st.1.map Prod.fst := by
        rw [h]
        simp
      obtain ⟨ha, hb⟩ := processFeature_absent D tol ln g idx pts st hnot
      by_cases hany : pts.any (fun pp => hitB D tol g pp.2) = true
      · have hif : (if (processFeature D pts tol ln g idx (st, false)).2 = true
            then idx + 1 else idx) = idx + 1 := by
          rw [hb]
          simp [hany]
        rw [hif]
        have hkeys2 : (processFeature D pts tol ln g idx (st, false)).1.1.map
            Prod.fst = List.range (idx + 1) := by
          rw [ha, if_pos hany, List.map_append, h]
          simp [List.range_succ]
        rw [ih (idx + 1) _ hkeys2]
        rw [ha, if_pos hany]
        constructor
        · rintro (⟨k, res, hkres, hres⟩ | ⟨hfgs, hanyf⟩)
          · rcases List.mem_append.mp hkres with hin | hin
            · exact Or.inl ⟨k, res, hin, hres⟩
            · have heq := List.mem_singleton.mp hin
              have hres2 : res = ⟨0, 0, 0, ln, g⟩ := congrArg Prod.snd heq
              have hgf : g = f := by
                rw [hres2] at hres
                exact hres
              subst hgf
              exact Or.inr ⟨List.mem_cons_self g gs, hany⟩
          · exact Or.inr ⟨List.mem_cons_of_mem g hfgs, hanyf⟩
        · rintro (⟨k, res, hkres, hres⟩ | ⟨hfin, hanyf⟩)
          · exact Or.inl ⟨k, res, List.mem_append_left _ hkres, hres⟩
          · rcases List.mem_cons.mp hfin with rfl | hin
            · exact Or.inl ⟨idx, ⟨0, 0, 0, ln, f⟩, List.mem_append_right _
                (List.mem_singleton_self _), rfl⟩
            · exact Or.inr ⟨hin, hanyf⟩
      · have hif : (if (processFeature D pts tol ln g idx (st, false)).2 = true
            then idx + 1 else idx) = idx := by
          rw [hb]
          simp [hany]
        rw [hif]
        have hkeys2 : (processFeature D pts tol ln g idx (st, false)).1.1.map
            Prod.fst = List.range idx := by
          rw [ha, if_neg hany]
          exact h
        rw [ih idx _ hkeys2]
        rw [ha, if_neg hany]
        constructor
        · rintro (hin | ⟨hfgs, hanyf⟩)
          · exact Or.inl hin
          · exact Or.inr ⟨List.mem_cons_of_mem g hfgs, hanyf⟩
        · rintro (hin | ⟨hfin, hanyf⟩)
          · exact Or.inl hin
          · rcases List.mem_cons.mp hfin with heq | hin2
            · subst heq
              exact absurd hanyf hany
            · exact Or.inr ⟨hin2, hanyf⟩

/-- Enumerating the query points does not change which points hit. -/
theorem enumFrom_any_snd (q : Pt → Bool) :
    ∀ (n : Nat) (pts : List Pt),
      ((List.enumFrom n pts).any fun pp => q pp.2) = pts.any q := by
  intro n pts
  induction pts generalizing n with
  | nil => rfl
  | cons p rest ih =>
      simp only [List.enumFrom, List.any_cons]
      rw [ih]

/-- C5: on a successful batch query, the features map assigns dense
insertion-ordered integer ids 0..n-1; a feature record for f is present in
it exactly when f is a feature of the queried layer registering at least
one hit (p2p distance in [0, tolerance]) against at least one query point;
and every per-point hit list is sorted by ascending distance.  The
hypothesis hpre is the consistency of the (externally computed) bbox
prefilter with the hit test: a feature hitting some query point intersects
the tolerance-padded bounding box of the query points. -/
theorem c5_querymany_features_and_hits (D : DistFns) (tile : List Layer)
    (pts : List Pt) (tol : ℚ) (ln : String) (r : QueryManyResult)
    (f : Feature)
    (hpre : ∀ l ∈ tile, ∀ g ∈ l.features,
      (∃ p ∈ pts, hitB D tol g p = true) → g ∈ queryManyCandidates l pts tol)
    (h : queryManyTile D tile pts tol ln = Except.ok r) :
    r.features.map Prod.fst = List.range r.features.length ∧
    ((∃ k res, (k, res) ∈ r.features ∧ res.feature = f) ↔
      (∃ l, tile.find? (fun l2 => l2.name == ln) = some l ∧ f ∈ l.features ∧
        ∃ p ∈ pts, hitB D tol f p = true)) ∧
    (∀ e ∈ r.hits, List.Pairwise hitLE e.2) := by
  unfold queryManyTile at h
  by_cases hln : ln = ""
  · rw [if_pos hln] at h
    exact absurd h (by simp)
  · rw [if_neg hln] at h
    cases hfind : tile.find? (fun l => l.name == ln) with
    | none =>
        rw [hfind] at h
        exact absurd h (by simp)
    | some l =>
        rw [hfind] at h
        dsimp only at h
        have hr : r = ⟨(scanFeatures D pts.enum tol l.name
            (queryManyCandidates l pts tol) 0 ([], [])).1,
            (scanFeatures D pts.enum tol l.name
              (queryManyCandidates l pts tol) 0 ([], [])).2.map
              fun e => (e.1, sortHits e.2)⟩ := by
          injection h with h2
          exact h2.symm
        subst hr
        have hl : l ∈ tile := List.mem_of_find?_eq_some hfind
        refine ⟨?_, ?_, ?_⟩
        · exact scanFeatures_keys D pts.enum tol l.name
            (queryManyCandidates l pts tol) 0 ([], []) (by simp)
        · rw [scanFeatures_mem D pts.enum tol l.name f
            (queryManyCandidates l pts tol) 0 ([], []) (by simp)]
          have hconv : (List.any pts.enum fun pp => hitB D tol f pp.2) =
              pts.any (hitB D tol f) := by
            have h3 := enumFrom_any_snd (hitB D tol f) 0 pts
            simpa [List.enum] using h3
          constructor
          · rintro (⟨k, res, hkres, _⟩ | ⟨hfc, hanyf⟩)
            · exact absurd hkres (by simp)
            · refine ⟨l, rfl, List.mem_of_mem_filter hfc, ?_⟩
              rw [hconv] at hanyf
              obtain ⟨p, hp, hq⟩ := List.any_eq_true.mp hanyf
              exact ⟨p, hp, hq⟩
          · rintro ⟨l2, hfind2, hf2, p, hp, hq⟩
            have hl2 : l2 = l := by
              injection hfind2 with h4
              exact h4.symm
            subst hl2
            refine Or.inr ⟨hpre l2 hl f hf2 ⟨p, hp, hq⟩, ?_⟩
            rw [hconv]
            exact List.any_eq_true.mpr ⟨p, hp, hq⟩
        · intro e he
          obtain ⟨e0, _, rfl⟩ := List.mem_map.mp he
          exact List.sorted_insertionSort hitLE e0.2

/-- Witness for c5_querymany_features_and_hits: one query point sitting on a
single point feature. -/
theorem c5_querymany_features_and_hits_witness :
    (∀ l ∈ ([⟨"a", [⟨1, Geom.point ⟨0, 0⟩⟩]⟩] : List Layer),
      ∀ g ∈ l.features,
        (∃ p ∈ ([⟨0, 0⟩] : List Pt), hitB sqFns 0 g p = true) →
        g ∈ queryManyCandidates l [⟨0, 0⟩] 0) ∧
    queryManyTile sqFns [⟨"a", [⟨1, Geom.point ⟨0, 0⟩⟩]⟩] [⟨0, 0⟩] 0 "a" =
      Except.ok ⟨[(0, ⟨0, 0, 0, "a", ⟨1, Geom.point ⟨0, 0⟩⟩⟩)],
        [(0, [⟨0, 0⟩])]⟩ ∧
    (QueryManyResult.mk [(0, ⟨0, 0, 0, "a", ⟨1, Geom.point ⟨0, 0⟩⟩⟩)]
        [(0, [⟨0, 0⟩])]).features.map Prod.fst =
      List.range (QueryManyResult.mk
        [(0, ⟨0, 0, 0, "a", ⟨1, Geom.point ⟨0, 0⟩⟩⟩)]
        [(0, [⟨0, 0⟩])]).features.length := by
  have hpre : ∀ l ∈ ([⟨"a", [⟨1, Geom.point ⟨0, 0⟩⟩]⟩] : List Layer),
      ∀ g ∈ l.features,
        (∃ p ∈ ([⟨0, 0⟩] : List Pt), hitB sqFns 0 g p = true) →
        g ∈ queryManyCandidates l [⟨0, 0⟩] 0 := by
    intro l hl g hg _
    rw [List.mem_singleton] at hl
    subst hl
    rw [List.mem_singleton] at hg
    subst hg
    norm_num [queryManyCandidates, queryManyBox, padBox, bboxOfPoints, envOf,
      geomPoints, boxIntersects, List.filter]
  have h : queryManyTile sqFns [⟨"a", [⟨1, Geom.point ⟨0, 0⟩⟩]⟩]
      [⟨0, 0⟩] 0 "a" = Except.ok
        ⟨[(0, ⟨0, 0, 0, "a", ⟨1, Geom.point ⟨0, 0⟩⟩⟩)], [(0, [⟨0, 0⟩])]⟩ := by
    unfold queryManyTile
    rw [if_neg (by decide : ¬ ("a" : String) = "")]
    rw [show List.find? (fun l => l.name == "a")
        ([⟨"a", [⟨1, Geom.point ⟨0, 0⟩⟩]⟩] : List Layer) =
        some (⟨"a", [⟨1, Geom.point ⟨0, 0⟩⟩]⟩ : Layer) from rfl]
    dsimp only
    norm_num [queryManyCandidates, queryManyBox, padBox,
      bboxOfPoints, envOf, geomPoints, boxIntersects, scanFeatures,
      processFeature, featInsert, hitsAppend, sortHits, p2pDist, p2pPoint,
      sqFns, List.filter, List.enum, List.enumFrom]
  exact ⟨hpre, h,
    (c5_querymany_features_and_hits sqFns [⟨"a", [⟨1, Geom.point ⟨0, 0⟩⟩]⟩]
      [⟨0, 0⟩] 0 "a" _ ⟨1, Geom.point ⟨0, 0⟩⟩ hpre h).1⟩

/-- C6: the batch query requires a layer name — an empty layer option is a
configuration error, a missing layer is an error, no all-layers fallback
exists (the successful case reads exactly one layer), and on success the
spatial prefilter applied to that layer is the bounding box of all query
points padded by the tolerance. -/
theorem c6_querymany_layer_required (D : DistFns) (tile : List Layer)
    (pts : List Pt) (tol : ℚ) (ln : String) :
    queryManyTile D tile pts tol "" =
      Except.error "options.layer is required" ∧
    (ln ≠ "" → tile.find? (fun l => l.name == ln) = none →
      queryManyTile D tile pts tol ln =
        Except.error "Could not find layer in vector tile") ∧
    (∀ l, ln ≠ "" → tile.find? (fun l2 => l2.name == ln) = some l →
      queryManyTile D tile pts tol ln = Except.ok
        ⟨(scanFeatures D pts.enum tol l.name
            (l.features.filter fun f =>
              match envOf f.geom with
              | none => false
              | some b => boxIntersects b (padBox (bboxOfPoints pts) tol))
            0 ([], [])).1,
         (scanFeatures D pts.enum tol l.name
            (l.features.filter fun f =>
              match envOf f.geom with
              | none => false
              | some b => boxIntersects b (padBox (bboxOfPoints pts) tol))
            0 ([], [])).2.map fun e => (e.1, sortHits e.2)⟩) := by
  refine ⟨?_, ?_, ?_⟩
  · unfold queryManyTile
    simp
  · intro hln hfind
    unfold queryManyTile
    rw [if_neg hln, hfind]
  · intro l hln hfind
    unfold queryManyTile
    rw [if_neg hln, hfind]
    rfl

/-- Witness for c6_querymany_layer_required: applying the success case to a
one-layer tile named a. -/
theorem c6_querymany_layer_required_witness :
    ("a" : String) ≠ "" ∧
    ([⟨"a", []⟩] : List Layer).find? (fun l2 => l2.name == "a") =
      some ⟨"a", []⟩ ∧
    queryManyTile sqFns [⟨"a", []⟩] [] 0 "a" = Except.ok ⟨[], []⟩ :=
  ⟨by decide, rfl,
   (c6_querymany_layer_required sqFns [⟨"a", []⟩] [] 0 "a").2.2
     ⟨"a", []⟩ (by decide) rfl⟩

/-- Witness for c10_setdata_not_atomic: a failing merge on a one-byte buffer
empties a tile that held one layer. -/
theorem c10_setdata_not_atomic_witness :
    ([1] : Buf) ≠ [] ∧
    (fun (_ : Buf) => (Except.error "bad buffer" : Except String (List Layer))) [1] =
      Except.error "bad buffer" ∧
    setDataSyncOp (fun _ => Except.error "bad buffer")
        ⟨0, 0, 0, 4096, 128, [⟨"world", []⟩]⟩ [1] =
      (⟨0, 0, 0, 4096, 128, []⟩, some "bad buffer") :=
  ⟨by decide, rfl,
   (c10_setdata_not_atomic (fun _ => Except.error "bad buffer")
      ⟨0, 0, 0, 4096, 128, [⟨"world", []⟩]⟩ [1] "bad buffer"
      (by decide) rfl).1⟩

end NodeMapnik
